import Mathlib

/-!
# GeoDash core — shallow embedding and verification

This file embeds the core data operations of the GeoDash city-lookup
service (repository search, geo-radius queries, CSV import, result
caching, shared-memory cleanup) as executable Lean definitions, and
proves or refutes the specification claims about them.

Modelling conventions:
* Python floats are modelled as `ℚ` (exact rationals).  Transcendental
  helpers that Python takes from `math`/`rapidfuzz` (the Haversine
  distance `_haversine` and the token-set-ratio scorer `fuzz.token_set_ratio`)
  are external collaborators of the core and are passed as function
  parameters (`hav`, `scorer`); theorems quantify over them.
* Python dicts are association lists in insertion order; `dict.get`
  is `dictGet`.  `list(set(xs))` has an unspecified iteration order in
  Python; it is modelled as `List.eraseDups` (first occurrence kept).
  No claim below depends on that order.
* A raised exception that the source catches with a `try/except`
  returning `[]` is modelled with `Option`: `none` means "an exception
  was raised inside the block", and the caller turns it into `[]` with
  `Option.getD`.  A `KeyError` from `self.city_index[city_id]` is a
  `none` from `dictGet`.
* Python's stable in-place `list.sort(key=k)` / `sorted(xs, key=k)` is
  `List.insertionSort` (a stable sort, so it computes the same list as
  Python's stable timsort) with the order `k a ≤ k b`.
* Python truthiness is modelled exactly where the source relies on it
  (`if not query`, `if country`, `if user_lat and user_lng`, `x or y`).
-/

namespace GeoDash

/-- Python list slicing `l[:k]`: for `k ≥ 0` take the first `k`
elements, for `k < 0` drop the last `-k` elements. -/
def pyTake (l : List α) (k : Int) : List α :=
  if 0 ≤ k then l.take k.toNat else l.take ((l.length : Int) + k).toNat

/-- Python `str.lower()` (the corpus-relevant ASCII case fold), stated
structurally on the character list so that it evaluates in the kernel. -/
def pyLower (s : String) : String :=
  ⟨s.data.map Char.toLower⟩

/-- Python `str.strip()`: drop whitespace on both ends. -/
def pyStrip (s : String) : String :=
  ⟨((s.data.dropWhile Char.isWhitespace).reverse.dropWhile
      Char.isWhitespace).reverse⟩

/-- Python `s.startswith(pre)`. -/
def pyStartsWith (s pre : String) : Bool :=
  pre.data.isPrefixOf s.data

/-- Python string truthiness: `not s` is true exactly for `""`. -/
def pyIsEmpty (s : String) : Bool :=
  s.data.isEmpty

/-- Python `d.get(k)` on an insertion-ordered dict modelled as an
association list. -/
def dictGet [BEq κ] (d : List (κ × ν)) (k : κ) : Option ν :=
  (d.find? (fun p => p.1 == k)).map (fun p => p.2)

/-- Python `d.get(k, dflt)`. -/
def dictGetD [BEq κ] (d : List (κ × ν)) (k : κ) (dflt : ν) : ν :=
  (dictGet d k).getD dflt

/-- The keys of a dict, in insertion order. -/
def dictKeys (d : List (κ × ν)) : List κ :=
  d.map (fun p => p.1)

/-- Python `d[k].append(v)` after `if k not in d: d[k] = []`: append `v`
to the list stored at `k`, inserting the key at the end on first use. -/
def dictAppend [BEq κ] (d : List (κ × List ν)) (k : κ) (v : ν) :
    List (κ × List ν) :=
  if (dictGet d k).isSome then
    d.map (fun p => if p.1 == k then (p.1, p.2 ++ [v]) else p)
  else
    d ++ [(k, [v])]

/-- Truthiness of an optional string argument (`if country:` in Python):
`None` and the empty string are falsy. -/
def pyTruthyStr : Option String → Bool
  | some s => !(pyIsEmpty s)
  | none => false

/-- Truthiness of an optional float argument (`if user_lat and user_lng:`):
`None` and `0.0` are falsy. -/
def pyTruthyNum : Option ℚ → Bool
  | some v => v != 0
  | none => false

/-- The lowercased country filter, present iff the filter is truthy.
Models the repeated `if country: country_lower = country.lower()`
pattern of `CityRepository`. -/
def ctryLower : Option String → Option String
  | some s => if pyIsEmpty s then none else some (pyLower s)
  | none => none

/-! ## Data model (§3 of the spec, table `city_data`)

A city record as selected by the repositories:
`SELECT id, name, ascii_name, country, country_code, state, state_code,
lat, lng FROM city_data`. -/

/-- One city row as held in `CityRepository.city_index` and returned by
queries. -/
structure City where
  id : Int
  name : String
  asciiName : String
  country : String
  countryCode : String
  state : Option String
  stateCode : Option String
  lat : ℚ
  lng : ℚ
deriving Repr, DecidableEq

/-- Database backend kind (`DatabaseManager.db_type`). -/
inductive DbType where
  | sqlite
  | postgresql
deriving Repr, DecidableEq

/-! ## GeoRepository (`repositories.py`, `find_by_coordinates` /
`_find_by_haversine`)

The embedding covers the embedded (SQLite) backend: the PostGIS branch
is only taken on the network backend.  `hav` is the `_haversine` float
oracle; `cosAbsLat` stands for the float `math.cos(math.radians(lat))`
computed by the source when the R*Tree exists (its absolute value is
taken in the formula, exactly as in the source). -/

/-- Error kinds raised by the core.  `invalidParameter` models the
`ValueError` raised by input validation, which the HTTP edge renders as
the spec's `InvalidParameter` (400, code `GD-API-3004`). -/
inductive GeoError where
  | invalidParameter (msg : String)
deriving Repr, DecidableEq

/-- A city together with the Haversine distance attached by
`_find_by_haversine` (`city['distance_km'] = distance`). -/
structure GeoHit where
  city : City
  distanceKm : ℚ
deriving Repr, DecidableEq

/-- `GeoRepository._find_by_haversine`.  `db` is the content of
`city_data`; `rtreeExists` is the `city_rtree` probe.  The R*Tree holds
one point rectangle `(lat, lat, lng, lng)` per city (kept by the
`city_rtree_insert`/`city_rtree_update` triggers of `schema.py`), so the
overlap join reduces to a point-in-box test on the city coordinates. -/
def findByHaversine (hav : ℚ → ℚ → ℚ → ℚ → ℚ) (db : List City)
    (rtreeExists : Bool) (cosAbsLat : ℚ) (lat lng radiusKm : ℚ) :
    List GeoHit :=
  if rtreeExists then
    let latRadius := radiusKm / (11132 / 100)
    let lngRadius := radiusKm / ((11132 / 100) * |cosAbsLat|)
    let minLat := lat - latRadius
    let maxLat := lat + latRadius
    let minLng := lng - lngRadius
    let maxLng := lng + lngRadius
    let rows := db.filter (fun c =>
      decide (c.lat ≤ maxLat) && decide (minLat ≤ c.lat) &&
      decide (c.lng ≤ maxLng) && decide (minLng ≤ c.lng))
    let citiesWithDistance := rows.filterMap (fun c =>
      let d := hav lat lng c.lat c.lng
      if d ≤ radiusKm then some ⟨c, d⟩ else none)
    List.insertionSort (fun a b => a.distanceKm ≤ b.distanceKm)
      citiesWithDistance
  else
    let citiesWithDistance := db.filterMap (fun c =>
      let d := hav lat lng c.lat c.lng
      if d ≤ radiusKm then some ⟨c, d⟩ else none)
    List.insertionSort (fun a b => a.distanceKm ≤ b.distanceKm)
      citiesWithDistance

/-- `GeoRepository.find_by_coordinates`: validate, then (on the embedded
backend) fall through to `_find_by_haversine`.  The `except` block of
`_find_by_haversine` returns `[]` on a database error, so a valid call
always produces a list. -/
def findByCoordinates (hav : ℚ → ℚ → ℚ → ℚ → ℚ) (db : List City)
    (rtreeExists : Bool) (cosAbsLat : ℚ) (lat lng radiusKm : ℚ) :
    Except GeoError (List GeoHit) :=
  if ¬(-90 ≤ lat ∧ lat ≤ 90) then
    .error (.invalidParameter "Latitude must be between -90 and 90")
  else if ¬(-180 ≤ lng ∧ lng ≤ 180) then
    .error (.invalidParameter "Longitude must be between -180 and 180")
  else if radiusKm ≤ 0 then
    .error (.invalidParameter "Radius must be positive")
  else
    .ok (findByHaversine hav db rtreeExists cosAbsLat lat lng radiusKm)

/-! ## CityRepository (`repositories.py`)

The in-memory lookup structures built by `CityRepository._load_cities`
and consulted by `CityRepository.search`. -/

/-- Python `d[k] = v`: overwrite in place, or append on first use. -/
def dictSet [BEq κ] (d : List (κ × ν)) (k : κ) (v : ν) : List (κ × ν) :=
  if (dictGet d k).isSome then
    d.map (fun p => if p.1 == k then (k, v) else p)
  else
    d ++ [(k, v)]

/-- The in-memory state of a `CityRepository`: `city_index`,
`city_names`, `ascii_names` and `country_cities` (the `pygtrie` tries
hold the same name-to-ids mapping as `city_names`/`ascii_names`, so the
non-trie dictionary branch is embedded). -/
structure CityRepository where
  dbType : DbType
  cityIndex : List (Int × City)
  cityNames : List (String × List Int)
  asciiNames : List (String × List Int)
  countryCities : List (String × List Int)
deriving Repr, DecidableEq

/-- `CityRepository._load_cities`: one pass over the `city_data` rows,
filling the four lookup structures.  Note the `country_cities` keys are
the lowercased country display names. -/
def loadCities (dbType : DbType) (rows : List City) : CityRepository :=
  rows.foldl (fun repo city =>
    { repo with
      cityIndex := dictSet repo.cityIndex city.id city
      cityNames := dictAppend repo.cityNames (pyLower city.name) city.id
      asciiNames :=
        dictAppend repo.asciiNames (pyLower city.asciiName) city.id
      countryCities :=
        dictAppend repo.countryCities (pyLower city.country) city.id })
    ⟨dbType, [], [], [], []⟩

/-- The tier a candidate was produced by (`match_type`). -/
inductive MatchType where
  | exact
  | pref
  | fuzzy
deriving Repr, DecidableEq

/-- A candidate dict while it moves through `search`: the copied city
plus the optional `match_type`, `fuzzy_score` and `distance_km` keys.
Candidates coming from the PostgreSQL full-text path carry no
`match_type`. -/
structure Tagged where
  city : City
  matchType : Option MatchType
  fuzzyScore : Option ℚ
  distanceKm : Option ℚ
deriving Repr, DecidableEq

/-- A result record after `city.pop('match_type')` /
`city.pop('fuzzy_score')`: the city fields plus the `distance_km`
annotation when location-aware ranking ran. -/
structure Stripped where
  city : City
  distanceKm : Option ℚ
deriving Repr, DecidableEq

/-- Drop the internal tags (`pop('match_type')`, `pop('fuzzy_score')`). -/
def stripTags (t : Tagged) : Stripped :=
  ⟨t.city, t.distanceKm⟩

/-- The match-type part of `city_score`:
`+100000` for exact, `+50000` for prefix matches, nothing otherwise. -/
def matchTypeScore (t : Tagged) : ℚ :=
  match t.matchType with
  | some .exact => 100000
  | some .pref => 50000
  | _ => 0

/-- The fuzzy part of `city_score`: the fuzzy score scaled by 200, with
an extra 1.5 factor above 80; zero when the candidate has no
`fuzzy_score` key. -/
def fuzzyBoost (t : Tagged) : ℚ :=
  match t.fuzzyScore with
  | some s => if 80 < s then s * 200 * (3 / 2) else s * 200
  | none => 0

/-- The location/country part of `city_score`: `+25000` when the
candidate country (display name, lowercased) equals the caller country,
plus `50000 / (1 + d/50)` for the Haversine distance to the caller. -/
def biasScore (hav : ℚ → ℚ → ℚ → ℚ → ℚ) (uLat uLng : Option ℚ)
    (uCountry : Option String) (c : City) : ℚ :=
  (match uCountry with
   | some uc => if pyLower c.country = pyLower uc then 25000 else 0
   | none => 0) +
  (match uLat, uLng with
   | some la, some ln => 50000 / (1 + hav la ln c.lat c.lng / 50)
   | _, _ => 0)

/-- `city_score` of `_apply_location_prioritization` (without the final
negation used as a sort key). -/
def cityScore (hav : ℚ → ℚ → ℚ → ℚ → ℚ) (uLat uLng : Option ℚ)
    (uCountry : Option String) (t : Tagged) : ℚ :=
  matchTypeScore t + fuzzyBoost t + biasScore hav uLat uLng uCountry t.city

/-- The `city['distance_km'] = distance` annotation performed inside
`city_score` whenever both caller coordinates are present. -/
def annotateDistance (hav : ℚ → ℚ → ℚ → ℚ → ℚ) (uLat uLng : Option ℚ)
    (t : Tagged) : Tagged :=
  match uLat, uLng with
  | some la, some ln =>
    { t with distanceKm := some (hav la ln t.city.lat t.city.lng) }
  | _, _ => t

/-- `simple_score` of `_apply_location_prioritization` (without the
final negation): 1000/500/0 by match type plus the raw fuzzy score. -/
def simpleScore (t : Tagged) : ℚ :=
  (match t.matchType with
   | some .exact => 1000
   | some .pref => 500
   | _ => 0) + t.fuzzyScore.getD 0

/-- `CityRepository._apply_location_prioritization`: when caller
coordinates or a caller country are present, annotate distances and
stable-sort ascending by the negated combined score; otherwise
stable-sort ascending by the negated simple score. -/
def applyLocationPrioritization (hav : ℚ → ℚ → ℚ → ℚ → ℚ)
    (uLat uLng : Option ℚ) (uCountry : Option String)
    (results : List Tagged) : List Tagged :=
  if results = [] then []
  else if (uLat.isSome ∧ uLng.isSome) ∨ uCountry.isSome then
    List.insertionSort
      (fun a b => -(cityScore hav uLat uLng uCountry a)
                    ≤ -(cityScore hav uLat uLng uCountry b))
      (results.map (annotateDistance hav uLat uLng))
  else
    List.insertionSort (fun a b => -(simpleScore a) ≤ -(simpleScore b))
      results

/-- The exact-match tier: ids found under the query in `city_names` and
`ascii_names`, dedupped (`list(set(..))`), then filtered by the country
display name when a truthy country filter is present.  A missing
`city_index` entry is a `KeyError` (`none`). -/
def exactMatchIds (repo : CityRepository) (q : String)
    (country : Option String) : Option (List Int) :=
  let ids := (dictGetD repo.cityNames q [] ++ dictGetD repo.asciiNames q []
    ).eraseDups
  match ctryLower country with
  | some co =>
    if ids ≠ [] then
      ids.filterM (fun i =>
        (dictGet repo.cityIndex i).map (fun c => pyLower c.country == co))
    else
      some ids
  | none => some ids

/-- `CityRepository._get_prefix_matches` (dictionary branch; the
`pygtrie` branch enumerates the same name buckets): collect the id
buckets of every name starting with the query, filter by country when
given, then dedup. -/
def getPrefMatches (repo : CityRepository) (query : String)
    (country : Option String) : Option (List Int) :=
  if pyIsEmpty query then some []
  else
    let q := pyLower query
    let ids :=
      (repo.cityNames.filter (fun p => pyStartsWith p.1 q)).flatMap
          (fun p => p.2) ++
        (repo.asciiNames.filter (fun p => pyStartsWith p.1 q)).flatMap
          (fun p => p.2)
    match ctryLower country with
    | some co =>
      (ids.filterM (fun i =>
        (dictGet repo.cityIndex i).map
          (fun c => pyLower c.country == co))).map List.eraseDups
    | none => some ids.eraseDups

/-- Materialise a tier: copy each city out of `city_index` and tag it
with its match type (a missing id is a `KeyError`). -/
def tagIds (repo : CityRepository) (ids : List Int) (mt : MatchType) :
    Option (List Tagged) :=
  ids.mapM (fun i =>
    (dictGet repo.cityIndex i).map (fun c => Tagged.mk c (some mt) none none))

/-- The name/id pairs scanned by the fuzzy stage: the cities of the
filtered country when a truthy filter is present, otherwise the whole
name universe of both name dictionaries. -/
def fuzzySearchNames (repo : CityRepository) (country : Option String) :
    Option (List (String × Int)) :=
  match ctryLower country with
  | some co =>
    ((dictGetD repo.countryCities co []).mapM (fun i =>
      (dictGet repo.cityIndex i).map (fun c =>
        [(pyLower c.name, i), (pyLower c.asciiName, i)]))).map List.flatten
  | none =>
    some ((repo.cityNames.flatMap (fun p => p.2.map (fun i => (p.1, i)))) ++
      (repo.asciiNames.flatMap (fun p => p.2.map (fun i => (p.1, i)))))

/-- `process.extract(query, names, limit=min(100, len(names)), scorer,
score_cutoff)`: score every candidate name, keep those at or above the
cutoff (no cutoff when the threshold is `None`), best matches first,
at most 100 of them. -/
def extractMatches (scorer : String → String → ℚ) (q : String)
    (thr : Option ℚ) (names : List (String × Int)) :
    List (String × ℚ × Int) :=
  let scored := names.map (fun p => (p.1, scorer q p.1, p.2))
  let cut := match thr with
    | some t => scored.filter (fun x => decide (t ≤ x.2.1))
    | none => scored
  (List.insertionSort (fun a b => b.2.1 ≤ a.2.1) cut).take 100

/-- The loop turning fuzzy matches into tagged candidates, skipping ids
already found by the exact or prefix tiers before the `city_index`
lookup. -/
def fuzzyBuild (repo : CityRepository) (exactIds prefIds : List Int) :
    List (String × ℚ × Int) → Option (List Tagged)
  | [] => some []
  | m :: rest =>
    if m.2.2 ∈ exactIds ∨ m.2.2 ∈ prefIds then
      fuzzyBuild repo exactIds prefIds rest
    else
      match dictGet repo.cityIndex m.2.2 with
      | none => none
      | some c =>
        (fuzzyBuild repo exactIds prefIds rest).map
          (fun ts => Tagged.mk c (some .fuzzy) (some m.2.1) none :: ts)

/-- The fuzzy tier of `search`: enumerate candidate names, dedup
(`list(set(..))`), run the scorer, convert to tagged candidates. -/
def fuzzyMatchResults (scorer : String → String → ℚ)
    (repo : CityRepository) (q : String) (country : Option String)
    (thr : Option ℚ) (exactIds prefIds : List Int) :
    Option (List Tagged) :=
  match fuzzySearchNames repo country with
  | none => none
  | some names =>
    fuzzyBuild repo exactIds prefIds
      (extractMatches scorer q thr names.eraseDups)

/-- The common tail of both return paths of `search`: prioritize, strip
the internal tags, truncate to `limit`. -/
def finalizeResults (hav : ℚ → ℚ → ℚ → ℚ → ℚ) (uLat uLng : Option ℚ)
    (uCountry : Option String) (lim : Int) (l : List Tagged) :
    List Stripped :=
  pyTake ((applyLocationPrioritization hav uLat uLng uCountry l).map
    stripTags) lim

/-- The tiered in-memory body of `search`, after the country-not-found
early return: exact tier, prefix tier minus exact, the skip-fuzzy early
return when five candidates are already present or the query is short,
otherwise the fuzzy tier, then ranking/stripping/truncation. -/
def searchCore (hav : ℚ → ℚ → ℚ → ℚ → ℚ) (scorer : String → String → ℚ)
    (repo : CityRepository) (q : String) (lim : Int)
    (country : Option String) (uLat uLng : Option ℚ)
    (uCountry : Option String) (thr : Option ℚ) : Option (List Stripped) :=
  match exactMatchIds repo q country with
  | none => none
  | some exactIds =>
    match getPrefMatches repo q country with
    | none => none
    | some prefAll =>
      let prefIds := prefAll.filter (fun i => !(exactIds.contains i))
      let cnt := exactIds.length + prefIds.length
      if (5 ≤ cnt ∨ q.length ≤ 2) ∧ 0 < cnt then
        match tagIds repo exactIds .exact, tagIds repo prefIds .pref with
        | some te, some tp =>
          some (finalizeResults hav uLat uLng uCountry lim (te ++ tp))
        | _, _ => none
      else
        match (if ¬(5 ≤ cnt ∨ q.length ≤ 2) ∧ 2 < q.length then
            fuzzyMatchResults scorer repo q country thr exactIds prefIds
          else some []) with
        | none => none
        | some fz =>
          match tagIds repo exactIds .exact, tagIds repo prefIds .pref with
          | some te, some tp =>
            some (finalizeResults hav uLat uLng uCountry lim (te ++ tp ++ fz))
          | _, _ => none

/-- The in-memory fallback path of `search`: an unknown truthy country
filter returns the empty result before consulting the tiers. -/
def searchInMemory (hav : ℚ → ℚ → ℚ → ℚ → ℚ)
    (scorer : String → String → ℚ) (repo : CityRepository) (q : String)
    (lim : Int) (country : Option String) (uLat uLng : Option ℚ)
    (uCountry : Option String) (thr : Option ℚ) : Option (List Stripped) :=
  match ctryLower country with
  | some co =>
    if co ∈ dictKeys repo.countryCities then
      searchCore hav scorer repo q lim country uLat uLng uCountry thr
    else
      some []
  | none => searchCore hav scorer repo q lim country uLat uLng uCountry thr

/-- `CityRepository.search` (the body under `@lru_cache`): empty query
short-circuits; on the PostgreSQL backend a non-empty full-text result
(`pg`, an oracle for `_perform_postgresql_search`) is returned after
optional country prioritization; otherwise the in-memory tiers run, and
any exception inside them yields `[]` (the enclosing `except`). -/
def CityRepository.search (hav : ℚ → ℚ → ℚ → ℚ → ℚ)
    (scorer : String → String → ℚ) (pg : List City)
    (repo : CityRepository) (query : String) (lim : Int)
    (country : Option String) (uLat uLng : Option ℚ)
    (uCountry : Option String) (thr : Option ℚ) : List Stripped :=
  if pyIsEmpty query then []
  else
    if repo.dbType = .postgresql ∧ pg ≠ [] then
      if pyTruthyStr uCountry ∧ ¬(pyTruthyNum uLat ∧ pyTruthyNum uLng) then
        pyTake ((applyLocationPrioritization hav none none uCountry
          (pg.map (fun c => Tagged.mk c none none none))).map stripTags) lim
      else
        pyTake (pg.map (fun c => Stripped.mk c none)) lim
    else
      (searchInMemory hav scorer repo (pyLower (pyStrip query)) lim
        country uLat uLng uCountry thr).getD []

/-- The tagged candidate list that `searchCore` ranks: exact tier, then
prefix tier, then fuzzy tier (empty when fuzzy matching is skipped).
Both return paths of the source build exactly this list —
`searchCore_eq_candidates` below proves it. -/
def searchCandidatesCore (scorer : String → String → ℚ)
    (repo : CityRepository) (q : String) (country : Option String)
    (thr : Option ℚ) : Option (List Tagged) :=
  match exactMatchIds repo q country with
  | none => none
  | some exactIds =>
    match getPrefMatches repo q country with
    | none => none
    | some prefAll =>
      let prefIds := prefAll.filter (fun i => !(exactIds.contains i))
      let cnt := exactIds.length + prefIds.length
      match (if ¬(5 ≤ cnt ∨ q.length ≤ 2) then
          fuzzyMatchResults scorer repo q country thr exactIds prefIds
        else some []) with
      | none => none
      | some fz =>
        match tagIds repo exactIds .exact, tagIds repo prefIds .pref with
        | some te, some tp => some (te ++ tp ++ fz)
        | _, _ => none

/-- The candidate list of the in-memory search, empty when a truthy
country filter is not indexed. -/
def searchCandidates (scorer : String → String → ℚ)
    (repo : CityRepository) (q : String) (country : Option String)
    (thr : Option ℚ) : Option (List Tagged) :=
  match ctryLower country with
  | some co =>
    if co ∈ dictKeys repo.countryCities then
      searchCandidatesCore scorer repo q country thr
    else
      some []
  | none => searchCandidatesCore scorer repo q country thr

/-! ## CityData facade (`city_manager.py`, `search_cities`) -/

/-- The configuration view consulted by `CityData.search_cities`. -/
structure SearchConfig where
  maxLimit : Int
  defaultLimit : Int
  enabledCountries : Option (List String)
  fuzzyThreshold : ℚ
  fuzzyEnabled : Bool
deriving Repr, DecidableEq

/-- `CityData.search_cities`: clamp the limit to the configured maximum
(defaulting a missing limit), substitute an enabled caller country for a
missing country filter, resolve the fuzzy threshold (passed as `None`
when fuzzy search is disabled), then call the repository search. -/
def searchCities (hav : ℚ → ℚ → ℚ → ℚ → ℚ)
    (scorer : String → String → ℚ) (pg : List City) (cfg : SearchConfig)
    (repo : CityRepository) (query : String) (limit : Option Int)
    (country : Option String) (uLat uLng : Option ℚ)
    (uCountry : Option String) : List Stripped :=
  repo.search hav scorer pg query
    (match limit with
     | none => cfg.defaultLimit
     | some l => if cfg.maxLimit < l then cfg.maxLimit else l)
    (match cfg.enabledCountries, country with
     | some ecs, none =>
       (match uCountry with
        | some uc => if uc ∈ ecs then some uc else none
        | none => none)
     | _, c => c)
    uLat uLng uCountry
    (if cfg.fuzzyEnabled then some cfg.fuzzyThreshold else none)

/-! ## Generic facts about the Python sort model -/

/-- A list sorted with a rational key function is pairwise ordered by
that key. -/
theorem pairwise_insertionSort_key (k : α → ℚ) (l : List α) :
    (List.insertionSort (fun a b => k a ≤ k b) l).Pairwise
      (fun a b => k a ≤ k b) := by
  haveI : IsTotal α (fun a b => k a ≤ k b) := ⟨fun a b => le_total _ _⟩
  haveI : IsTrans α (fun a b => k a ≤ k b) :=
    ⟨fun a b c hab hbc => le_trans hab hbc⟩
  exact List.sorted_insertionSort _ l

/-- Membership is preserved by the sort model. -/
theorem mem_insertionSort_key {k : α → ℚ} {l : List α} {x : α} :
    x ∈ List.insertionSort (fun a b => k a ≤ k b) l ↔ x ∈ l :=
  (List.perm_insertionSort _ l).mem_iff

/-- `pyTake` never yields more than `k` elements when `k ≥ 0`. -/
theorem length_pyTake_le (l : List α) (k : Int) (hk : 0 ≤ k) :
    ((pyTake l k).length : Int) ≤ k := by
  unfold pyTake
  rw [if_pos hk]
  have := List.length_take_le k.toNat l
  omega

/-! ## Concrete data for witnesses -/

/-- A concrete distance oracle for witnesses: distance 3 to the city at
latitude 2, distance 5 to the city at latitude 1, distance 50 elsewhere. -/
def havW : ℚ → ℚ → ℚ → ℚ → ℚ := fun _ _ clat _ =>
  if clat = 2 then 3 else if clat = 1 then 5 else 50

/-- Concrete city for witnesses. -/
def cityW1 : City :=
  ⟨1, "Alpha", "alpha", "Freedonia", "FD", none, none, 1, 10⟩

/-- Second concrete witness city. -/
def cityW2 : City :=
  ⟨2, "Beta", "beta", "Freedonia", "FD", none, none, 2, 20⟩

/-- Third concrete witness city, too far away for a radius of 10. -/
def cityW3 : City :=
  ⟨3, "Gamma", "gamma", "Sylvania", "SY", none, none, 5, 30⟩

/-! ## Claim C2: the result count is bounded by the clamped limit -/

/-- The common tail of `search` truncates to the limit. -/
theorem finalizeResults_length_le (hav : ℚ → ℚ → ℚ → ℚ → ℚ)
    (uLat uLng : Option ℚ) (uCountry : Option String) (lim : Int)
    (l : List Tagged) (hlim : 0 ≤ lim) :
    ((finalizeResults hav uLat uLng uCountry lim l).length : Int) ≤ lim :=
  length_pyTake_le _ _ hlim

/-- Every `some` outcome of the tiered body is truncated to the limit. -/
theorem searchCore_length_le (hav : ℚ → ℚ → ℚ → ℚ → ℚ)
    (scorer : String → String → ℚ) (repo : CityRepository) (q : String)
    (lim : Int) (country : Option String) (uLat uLng : Option ℚ)
    (uCountry : Option String) (thr : Option ℚ) (r : List Stripped)
    (hlim : 0 ≤ lim)
    (h : searchCore hav scorer repo q lim country uLat uLng uCountry thr
          = some r) :
    ((r.length : Int)) ≤ lim := by
  unfold searchCore at h
  split at h
  · exact Option.noConfusion h
  split at h
  · exact Option.noConfusion h
  simp only [] at h
  split at h
  · split at h
    · cases h
      exact finalizeResults_length_le _ _ _ _ _ _ hlim
    · exact Option.noConfusion h
  · split at h
    · exact Option.noConfusion h
    split at h
    · cases h
      exact finalizeResults_length_le _ _ _ _ _ _ hlim
    · exact Option.noConfusion h

/-- Every return path of `CityRepository.search` yields at most `lim`
results, for any nonnegative `lim`. -/
theorem search_length_le (hav : ℚ → ℚ → ℚ → ℚ → ℚ)
    (scorer : String → String → ℚ) (pg : List City)
    (repo : CityRepository) (query : String) (lim : Int)
    (country : Option String) (uLat uLng : Option ℚ)
    (uCountry : Option String) (thr : Option ℚ) (hlim : 0 ≤ lim) :
    (((CityRepository.search hav scorer pg repo query lim country uLat
        uLng uCountry thr).length : Int)) ≤ lim := by
  unfold CityRepository.search
  split
  · simpa using hlim
  split
  · split
    · exact length_pyTake_le _ _ hlim
    · exact length_pyTake_le _ _ hlim
  · rcases hmem : searchInMemory hav scorer repo (pyLower (pyStrip query))
      lim country uLat uLng uCountry thr with _ | r
    · simpa [hmem] using hlim
    · simp only [Option.getD_some]
      unfold searchInMemory at hmem
      split at hmem
      · split at hmem
        · exact searchCore_length_le _ _ _ _ _ _ _ _ _ _ _ hlim hmem
        · cases hmem
          simpa using hlim
      · exact searchCore_length_le _ _ _ _ _ _ _ _ _ _ _ hlim hmem

/-- C2 (counterexample): the claim quantifies over every limit value,
but for a negative limit Python's slice `results[:limit]` does not
bound the result count by `min(limit, max)`: with `limit = -1` and
`max = 100` even an empty result list has length `0 > -1`. -/
theorem searchCities_limit_counterexample :
    ¬ (((searchCities (fun _ _ _ _ => 0) (fun _ _ => 90) []
          ⟨100, 10, none, 70, true⟩ (loadCities .sqlite []) "x"
          (some (-1)) none none none none).length : Int) ≤
        min (-1) 100) := by
  decide

/-- C2 (amended): for every query, every provided nonnegative limit and
every nonnegative configured maximum, the facade clamps the limit to
the maximum and the engine truncates every return path, so the number
of results is at most `min(limit, config.search.limits.max)`. -/
theorem searchCities_length_le (hav : ℚ → ℚ → ℚ → ℚ → ℚ)
    (scorer : String → String → ℚ) (pg : List City) (cfg : SearchConfig)
    (repo : CityRepository) (query : String) (l : Int)
    (country : Option String) (uLat uLng : Option ℚ)
    (uCountry : Option String) (hl : 0 ≤ l) (hmax : 0 ≤ cfg.maxLimit) :
    (((searchCities hav scorer pg cfg repo query (some l) country uLat
        uLng uCountry).length : Int)) ≤ min l cfg.maxLimit := by
  unfold searchCities
  have hmin : (match some l with
      | none => cfg.defaultLimit
      | some l => if cfg.maxLimit < l then cfg.maxLimit else l)
      = min l cfg.maxLimit := by
    simp only []
    split <;> omega
  rw [hmin]
  exact search_length_le _ _ _ _ _ _ _ _ _ _ _ (le_min hl hmax)

/-- Witness for the amended C2: a concrete in-range call obeys the
bound. -/
theorem searchCities_length_le_witness :
    (0 : Int) ≤ 3 ∧ (0 : Int) ≤ 100 ∧
      (((searchCities (fun _ _ _ _ => 0) (fun _ _ => 90) []
          ⟨100, 10, none, 70, true⟩ (loadCities .sqlite [cityW1]) "alp"
          (some 3) none none none none).length : Int)) ≤ min 3 100 :=
  ⟨by norm_num, by norm_num,
   searchCities_length_le (fun _ _ _ _ => 0) (fun _ _ => 90) []
     ⟨100, 10, none, 70, true⟩ (loadCities .sqlite [cityW1]) "alp" 3
     none none none none (by norm_num) (by norm_num)⟩

/-! ## Claim C8: empty query and unknown country filter -/

/-- C8: `search` returns `[]` (and cannot raise — it is a total
function into lists) when the query is empty, whatever the repository,
backend or full-text oracle — the empty-query test is the first
statement of the body, before any index or store access — and likewise
when a truthy country filter is not a key of the in-memory country
index on the embedded backend. -/
theorem search_empty_and_unknown_country (hav : ℚ → ℚ → ℚ → ℚ → ℚ)
    (scorer : String → String → ℚ) (pg : List City)
    (repo : CityRepository) (lim : Int) (country : Option String)
    (uLat uLng : Option ℚ) (uCountry : Option String) (thr : Option ℚ) :
    (CityRepository.search hav scorer pg repo "" lim country uLat uLng
        uCountry thr = []) ∧
    (∀ (query : String) (co : String), repo.dbType = .sqlite →
      ctryLower country = some co →
      co ∉ dictKeys repo.countryCities →
      CityRepository.search hav scorer pg repo query lim country uLat
        uLng uCountry thr = []) := by
  constructor
  · unfold CityRepository.search
    rw [if_pos (by decide)]
  · intro query co hdb hco hkeys
    unfold CityRepository.search
    split
    · rfl
    rw [if_neg (by rw [hdb]; rintro ⟨h, -⟩; cases h)]
    unfold searchInMemory
    rw [hco]
    simp only []
    rw [if_neg hkeys]
    rfl

/-- Witness for C8: concrete empty-query call and a concrete call with
the unknown country filter "Atlantis" against a one-city corpus. -/
theorem search_empty_and_unknown_country_witness :
    (CityRepository.search (fun _ _ _ _ => 0) (fun _ _ => 90) []
        (loadCities .sqlite [cityW1]) "" 10 (some "Atlantis") none none
        none (some 70) = []) ∧
    (CityRepository.search (fun _ _ _ _ => 0) (fun _ _ => 90) []
        (loadCities .sqlite [cityW1]) "alp" 10 (some "Atlantis") none
        none none (some 70) = []) := by
  have h := search_empty_and_unknown_country (fun _ _ _ _ => 0)
    (fun _ _ => 90) [] (loadCities .sqlite [cityW1]) 10 (some "Atlantis")
    none none none (some 70)
  exact ⟨h.1, h.2 "alp" "atlantis" rfl (by decide) (by decide)⟩

/-! ## Claim C1: exact before prefix before fuzzy -/

/-- Ranking, stripping and truncating the empty candidate list yields
the empty result. -/
theorem finalizeResults_nil (hav : ℚ → ℚ → ℚ → ℚ → ℚ)
    (uLat uLng : Option ℚ) (uCountry : Option String) (lim : Int) :
    finalizeResults hav uLat uLng uCountry lim [] = [] := by
  unfold finalizeResults applyLocationPrioritization pyTake
  simp

/-- Both return paths of the tiered search body rank, strip and
truncate the candidate list `searchCandidatesCore`. -/
theorem searchCore_eq_candidates (hav : ℚ → ℚ → ℚ → ℚ → ℚ)
    (scorer : String → String → ℚ) (repo : CityRepository) (q : String)
    (lim : Int) (country : Option String) (uLat uLng : Option ℚ)
    (uCountry : Option String) (thr : Option ℚ) :
    searchCore hav scorer repo q lim country uLat uLng uCountry thr
      = (searchCandidatesCore scorer repo q country thr).map
          (finalizeResults hav uLat uLng uCountry lim) := by
  unfold searchCore searchCandidatesCore
  cases hE : exactMatchIds repo q country with
  | none => rfl
  | some exactIds =>
    cases hP : getPrefMatches repo q country with
    | none => rfl
    | some prefAll =>
      simp only []
      by_cases hskip : (5 ≤ exactIds.length +
          (prefAll.filter (fun i => !(exactIds.contains i))).length ∨
          q.length ≤ 2)
      · rw [if_neg (not_not_intro hskip)]
        by_cases hpos : 0 < exactIds.length +
            (prefAll.filter (fun i => !(exactIds.contains i))).length
        · rw [if_pos ⟨hskip, hpos⟩]
          cases tagIds repo exactIds .exact <;>
            cases tagIds repo
              (prefAll.filter (fun i => !(exactIds.contains i))) .pref <;>
            simp
        · rw [if_neg (fun h => hpos h.2), if_neg (fun h => h.1 hskip)]
          cases tagIds repo exactIds .exact <;>
            cases tagIds repo
              (prefAll.filter (fun i => !(exactIds.contains i))) .pref <;>
            simp
      · rw [if_pos hskip, if_neg (fun h => hskip h.1),
          if_pos ⟨hskip, by push_neg at hskip; omega⟩]
        cases fuzzyMatchResults scorer repo q country thr exactIds
          (prefAll.filter (fun i => !(exactIds.contains i))) with
        | none => rfl
        | some fz =>
          cases tagIds repo exactIds .exact <;>
            cases tagIds repo
              (prefAll.filter (fun i => !(exactIds.contains i))) .pref <;>
            simp

/-- The in-memory search ranks, strips and truncates its candidate
list. -/
theorem searchInMemory_eq_candidates (hav : ℚ → ℚ → ℚ → ℚ → ℚ)
    (scorer : String → String → ℚ) (repo : CityRepository) (q : String)
    (lim : Int) (country : Option String) (uLat uLng : Option ℚ)
    (uCountry : Option String) (thr : Option ℚ) :
    searchInMemory hav scorer repo q lim country uLat uLng uCountry thr
      = (searchCandidates scorer repo q country thr).map
          (finalizeResults hav uLat uLng uCountry lim) := by
  unfold searchInMemory searchCandidates
  cases ctryLower country with
  | none => exact searchCore_eq_candidates _ _ _ _ _ _ _ _ _ _
  | some co =>
    simp only []
    split
    · exact searchCore_eq_candidates _ _ _ _ _ _ _ _ _ _
    · simp [finalizeResults_nil]

/-- If a monadic map over `Option` succeeds, every output element is
the image of some input element. -/
theorem mapM_option_forall_mem (f : α → Option β) :
    ∀ (l : List α) (res : List β), l.mapM f = some res →
      ∀ b ∈ res, ∃ a ∈ l, f a = some b := by
  intro l
  induction l with
  | nil =>
    intro res h b hb
    simp only [List.mapM_nil, pure, Option.some.injEq] at h
    subst h
    simp at hb
  | cons a as ih =>
    intro res h b hb
    rw [List.mapM_cons] at h
    simp only [bind, Option.bind_eq_some, pure, Option.some.injEq] at h
    obtain ⟨b0, hb0, bs, hbs, rfl⟩ := h
    rcases List.mem_cons.1 hb with rfl | hmem
    · exact ⟨a, List.mem_cons_self a as, hb0⟩
    · obtain ⟨a0, ha0, hfa0⟩ := ih bs hbs b hmem
      exact ⟨a0, List.mem_cons_of_mem a ha0, hfa0⟩

/-- Every candidate materialised by `tagIds` carries the requested
match type and no fuzzy score. -/
theorem tagIds_mem (repo : CityRepository) (ids : List Int)
    (mt : MatchType) (l : List Tagged) (h : tagIds repo ids mt = some l) :
    ∀ t ∈ l, t.matchType = some mt ∧ t.fuzzyScore = none := by
  intro t ht
  obtain ⟨i, _, hf⟩ := mapM_option_forall_mem _ ids l h t ht
  rcases hget : dictGet repo.cityIndex i with _ | c <;> rw [hget] at hf
  · cases hf
  · cases hf
    exact ⟨rfl, rfl⟩

/-- Every candidate produced by the fuzzy loop is fuzzy-tagged and
carries the score of one of the extracted matches. -/
theorem fuzzyBuild_mem (repo : CityRepository) (e p : List Int) :
    ∀ (ms : List (String × ℚ × Int)) (ts : List Tagged),
      fuzzyBuild repo e p ms = some ts →
      ∀ t ∈ ts, t.matchType = some .fuzzy ∧
        ∃ m ∈ ms, t.fuzzyScore = some m.2.1 := by
  intro ms
  induction ms with
  | nil =>
    intro ts h t ht
    cases h
    simp at ht
  | cons m rest ih =>
    intro ts h t ht
    unfold fuzzyBuild at h
    split at h
    · obtain ⟨hmt, m0, hm0, hfs⟩ := ih ts h t ht
      exact ⟨hmt, m0, List.mem_cons_of_mem m hm0, hfs⟩
    · split at h
      · cases h
      · simp only [Option.map_eq_some'] at h
        obtain ⟨ts0, hts0, rfl⟩ := h
        rcases List.mem_cons.1 ht with rfl | hmem
        · exact ⟨rfl, m, List.mem_cons_self m rest, rfl⟩
        · obtain ⟨hmt, m0, hm0, hfs⟩ := ih ts0 hts0 t hmem
          exact ⟨hmt, m0, List.mem_cons_of_mem m hm0, hfs⟩

/-- Every extracted match carries the scorer value of its name. -/
theorem extractMatches_mem (scorer : String → String → ℚ) (q : String)
    (thr : Option ℚ) (names : List (String × Int))
    (m : String × ℚ × Int) (hm : m ∈ extractMatches scorer q thr names) :
    m.2.1 = scorer q m.1 := by
  unfold extractMatches at hm
  have hm2 := (List.perm_insertionSort _ _).mem_iff.1
    (List.mem_of_mem_take hm)
  have hm3 : m ∈ names.map (fun p => (p.1, scorer q p.1, p.2)) := by
    rcases thr with _ | t
    · exact hm2
    · exact (List.mem_filter.1 hm2).1
  obtain ⟨p, _, rfl⟩ := List.mem_map.1 hm3
  rfl

/-- The well-formedness of a tagged in-memory candidate: its tier tag
and the shape of its fuzzy score (bounded when the scorer is). -/
def TagTierShape (t : Tagged) : Prop :=
  (t.matchType = some .exact ∧ t.fuzzyScore = none) ∨
  (t.matchType = some .pref ∧ t.fuzzyScore = none) ∨
  (t.matchType = some .fuzzy ∧
    ∃ s, t.fuzzyScore = some s ∧ 0 ≤ s ∧ s ≤ 100)

/-- With a 0..100-valued scorer (the token-set-ratio contract), every
candidate of the in-memory search is well-formed. -/
theorem searchCandidates_shape (scorer : String → String → ℚ)
    (repo : CityRepository) (q : String) (country : Option String)
    (thr : Option ℚ) (cands : List Tagged)
    (hs : ∀ a b, 0 ≤ scorer a b ∧ scorer a b ≤ 100)
    (hc : searchCandidates scorer repo q country thr = some cands) :
    ∀ t ∈ cands, TagTierShape t := by
  have core : ∀ (h : searchCandidatesCore scorer repo q country thr
      = some cands), ∀ t ∈ cands, TagTierShape t := by
    intro h t ht
    unfold searchCandidatesCore at h
    rcases hE : exactMatchIds repo q country with _ | exactIds <;>
      rw [hE] at h <;> (try simp only [] at h)
    · cases h
    rcases hP : getPrefMatches repo q country with _ | prefAll <;>
      rw [hP] at h <;> (try simp only [] at h)
    · cases h
    rcases hFz : (if ¬(5 ≤ exactIds.length +
          (prefAll.filter (fun i => !(exactIds.contains i))).length ∨
          q.length ≤ 2) then
        fuzzyMatchResults scorer repo q country thr exactIds
          (prefAll.filter (fun i => !(exactIds.contains i)))
      else some []) with _ | fz <;> rw [hFz] at h <;> (try simp only [] at h)
    · cases h
    rcases hTe : tagIds repo exactIds .exact with _ | te <;>
      rw [hTe] at h <;> (try simp only [] at h)
    · cases h
    rcases hTp : tagIds repo
        (prefAll.filter (fun i => !(exactIds.contains i))) .pref
      with _ | tp <;> rw [hTp] at h <;> (try simp only [] at h)
    · cases h
    cases h
    rcases List.mem_append.1 ht with hte | htpfz
    · rcases List.mem_append.1 hte with hte2 | htp
      · exact Or.inl (tagIds_mem _ _ _ _ hTe t hte2)
      · exact Or.inr (Or.inl (tagIds_mem _ _ _ _ hTp t htp))
    · right; right
      by_cases hskip : ¬(5 ≤ exactIds.length +
          (prefAll.filter (fun i => !(exactIds.contains i))).length ∨
          q.length ≤ 2)
      · rw [if_pos hskip] at hFz
        unfold fuzzyMatchResults at hFz
        rcases hN : fuzzySearchNames repo country with _ | names <;>
          rw [hN] at hFz
        · cases hFz
        · obtain ⟨hmt, m, hm, hfs⟩ :=
            fuzzyBuild_mem _ _ _ _ _ hFz t htpfz
          have hval := extractMatches_mem _ _ _ _ _ hm
          refine ⟨hmt, m.2.1, hfs, ?_, ?_⟩
          · rw [hval]; exact (hs q m.1).1
          · rw [hval]; exact (hs q m.1).2
      · rw [if_neg hskip] at hFz
        cases hFz
        simp at htpfz
  unfold searchCandidates at hc
  split at hc
  · split at hc
    · exact core hc
    · cases hc
      intro t ht
      simp at ht
  · exact core hc

/-- The tier position of a candidate: exact < prefix < fuzzy. -/
def tierRank (t : Tagged) : ℕ :=
  match t.matchType with
  | some .exact => 0
  | some .pref => 1
  | some .fuzzy => 2
  | none => 3

/-- A fuzzy score in 0..100 contributes between 0 and 30000 to the
combined score (200 per point, 300 per point above 80). -/
theorem fuzzyBoost_bounds {t : Tagged} {s : ℚ} (hfs : t.fuzzyScore = some s)
    (h0 : 0 ≤ s) (h1 : s ≤ 100) :
    0 ≤ fuzzyBoost t ∧ fuzzyBoost t ≤ 30000 := by
  have hval : fuzzyBoost t
      = if 80 < s then s * 200 * (3 / 2) else s * 200 := by
    unfold fuzzyBoost
    rw [hfs]
  rw [hval]
  constructor <;> split <;> linarith

/-- A candidate without a fuzzy score contributes nothing fuzzily. -/
theorem fuzzyBoost_none {t : Tagged} (hfs : t.fuzzyScore = none) :
    fuzzyBoost t = 0 := by
  unfold fuzzyBoost
  rw [hfs]

/-- Under equal location/country bias, the combined-score order refines
the tier order: a candidate ranked at least as high sits in an earlier
or equal tier. -/
theorem tierRank_mono_of_cityScore (hav : ℚ → ℚ → ℚ → ℚ → ℚ)
    (uLat uLng : Option ℚ) (uCountry : Option String) (bias : ℚ)
    {a b : Tagged} (hsa : TagTierShape a) (hsb : TagTierShape b)
    (hba : biasScore hav uLat uLng uCountry a.city = bias)
    (hbb : biasScore hav uLat uLng uCountry b.city = bias)
    (hk : -(cityScore hav uLat uLng uCountry a)
          ≤ -(cityScore hav uLat uLng uCountry b)) :
    tierRank a ≤ tierRank b := by
  unfold cityScore at hk
  rw [hba, hbb] at hk
  rcases hsa with ⟨hma, hfa⟩ | ⟨hma, hfa⟩ | ⟨hma, sa, hfa, hsa0, hsa1⟩ <;>
    rcases hsb with ⟨hmb, hfb⟩ | ⟨hmb, hfb⟩ | ⟨hmb, sb, hfb, hsb0, hsb1⟩ <;>
    simp only [tierRank, matchTypeScore, hma, hmb] at hk ⊢
  · exact le_refl 0
  · exact Nat.zero_le 1
  · exact Nat.zero_le 2
  · rw [fuzzyBoost_none hfa, fuzzyBoost_none hfb] at hk
    exact absurd hk (by push_neg; linarith)
  · exact le_refl 1
  · exact Nat.one_le_iff_ne_zero.mpr (by decide)
  · have hbnd := fuzzyBoost_bounds hfa hsa0 hsa1
    rw [fuzzyBoost_none hfb] at hk
    exact absurd hk (by push_neg; linarith [hbnd.2])
  · have hbnd := fuzzyBoost_bounds hfa hsa0 hsa1
    rw [fuzzyBoost_none hfb] at hk
    exact absurd hk (by push_neg; linarith [hbnd.2])
  · exact le_refl 2

/-- The same refinement for the no-location branch. -/
theorem tierRank_mono_of_simpleScore {a b : Tagged}
    (hsa : TagTierShape a) (hsb : TagTierShape b)
    (hk : -(simpleScore a) ≤ -(simpleScore b)) :
    tierRank a ≤ tierRank b := by
  unfold simpleScore at hk
  rcases hsa with ⟨hma, hfa⟩ | ⟨hma, hfa⟩ | ⟨hma, sa, hfa, hsa0, hsa1⟩ <;>
    rcases hsb with ⟨hmb, hfb⟩ | ⟨hmb, hfb⟩ | ⟨hmb, sb, hfb, hsb0, hsb1⟩ <;>
    simp only [tierRank, hma, hmb, hfa, hfb, Option.getD_some,
      Option.getD_none] at hk ⊢
  · exact le_refl 0
  · exact Nat.zero_le 1
  · exact Nat.zero_le 2
  · exact absurd hk (by norm_num)
  · exact le_refl 1
  · exact Nat.one_le_iff_ne_zero.mpr (by decide)
  · exact absurd hk (by push_neg; linarith)
  · exact absurd hk (by push_neg; linarith)
  · exact le_refl 2

/-- The distance annotation changes no field but `distance_km`. -/
theorem annotateDistance_fields (hav : ℚ → ℚ → ℚ → ℚ → ℚ)
    (uLat uLng : Option ℚ) (t : Tagged) :
    (annotateDistance hav uLat uLng t).matchType = t.matchType ∧
    (annotateDistance hav uLat uLng t).fuzzyScore = t.fuzzyScore ∧
    (annotateDistance hav uLat uLng t).city = t.city := by
  cases uLat <;> cases uLng <;> exact ⟨rfl, rfl, rfl⟩

/-- The shape of a candidate survives distance annotation. -/
theorem tagTierShape_annotate (hav : ℚ → ℚ → ℚ → ℚ → ℚ)
    (uLat uLng : Option ℚ) {t : Tagged} (h : TagTierShape t) :
    TagTierShape (annotateDistance hav uLat uLng t) := by
  obtain ⟨hm, hf, -⟩ := annotateDistance_fields hav uLat uLng t
  unfold TagTierShape at h ⊢
  rw [hm, hf]
  exact h

/-- Ranking a candidate list whose members are well-formed and share
one location/country bias keeps the tiers in order: every exact
candidate precedes every prefix candidate, every prefix candidate
precedes every fuzzy candidate. -/
theorem ranked_tiers_ordered (hav : ℚ → ℚ → ℚ → ℚ → ℚ)
    (uLat uLng : Option ℚ) (uCountry : Option String) (bias : ℚ)
    (cands : List Tagged)
    (hshape : ∀ t ∈ cands, TagTierShape t)
    (hb : ∀ t ∈ cands, biasScore hav uLat uLng uCountry t.city = bias) :
    (applyLocationPrioritization hav uLat uLng uCountry cands).Pairwise
      (fun a b => tierRank a ≤ tierRank b) := by
  unfold applyLocationPrioritization
  split
  · exact List.Pairwise.nil
  split
  · refine List.Pairwise.imp_of_mem ?_
      (pairwise_insertionSort_key
        (fun t => -(cityScore hav uLat uLng uCountry t))
        (cands.map (annotateDistance hav uLat uLng)))
    intro a b hma hmb hk
    have hma2 := (List.perm_insertionSort _ _).mem_iff.1 hma
    have hmb2 := (List.perm_insertionSort _ _).mem_iff.1 hmb
    obtain ⟨ta, hta, rfl⟩ := List.mem_map.1 hma2
    obtain ⟨tb, htb, rfl⟩ := List.mem_map.1 hmb2
    refine tierRank_mono_of_cityScore hav uLat uLng uCountry bias
      (tagTierShape_annotate _ _ _ (hshape ta hta))
      (tagTierShape_annotate _ _ _ (hshape tb htb)) ?_ ?_ hk
    · rw [(annotateDistance_fields hav uLat uLng ta).2.2]
      exact hb ta hta
    · rw [(annotateDistance_fields hav uLat uLng tb).2.2]
      exact hb tb htb
  · refine List.Pairwise.imp_of_mem ?_
      (pairwise_insertionSort_key (fun t => -(simpleScore t)) cands)
    intro a b hma hmb hk
    have hma2 := (List.perm_insertionSort _ _).mem_iff.1 hma
    have hmb2 := (List.perm_insertionSort _ _).mem_iff.1 hmb
    exact tierRank_mono_of_simpleScore (hshape a hma2) (hshape b hmb2) hk

/-- C1: on the embedded backend, for a non-empty query, the list
returned by `search` is the strip-and-truncate image (order-preserving)
of the ranked candidate list, and in that ranked list — whenever all
candidates carry the same location/country bias (same country-match
status and equal distance contribution, here: equal `biasScore`) and
the fuzzy scorer obeys the 0..100 token-set-ratio contract — every
exact-match candidate precedes every prefix-match candidate and every
prefix-match candidate precedes every fuzzy-match candidate. -/
theorem search_tier_ordering (hav : ℚ → ℚ → ℚ → ℚ → ℚ)
    (scorer : String → String → ℚ) (pg : List City)
    (repo : CityRepository) (query : String) (lim : Int)
    (country : Option String) (uLat uLng : Option ℚ)
    (uCountry : Option String) (thr : Option ℚ) (cands : List Tagged)
    (bias : ℚ)
    (hdb : repo.dbType = .sqlite)
    (hq : pyIsEmpty query = false)
    (hs : ∀ a b, 0 ≤ scorer a b ∧ scorer a b ≤ 100)
    (hc : searchCandidates scorer repo (pyLower (pyStrip query)) country
          thr = some cands)
    (hb : ∀ t ∈ cands, biasScore hav uLat uLng uCountry t.city = bias) :
    CityRepository.search hav scorer pg repo query lim country uLat uLng
        uCountry thr
      = pyTake ((applyLocationPrioritization hav uLat uLng uCountry
          cands).map stripTags) lim ∧
    (applyLocationPrioritization hav uLat uLng uCountry cands).Pairwise
      (fun a b => tierRank a ≤ tierRank b) := by
  constructor
  · unfold CityRepository.search
    rw [if_neg (by simp [hq]), if_neg (by rw [hdb]; rintro ⟨h, -⟩; cases h),
      searchInMemory_eq_candidates, hc]
    rfl
  · exact ranked_tiers_ordered hav uLat uLng uCountry bias cands
      (searchCandidates_shape scorer repo _ country thr cands hs hc) hb

/-- Witness city producing a prefix match for the query "alpha". -/
def cityWB : City :=
  ⟨4, "Alphaville", "alphaville", "Freedonia", "FD", none, none, 3, 30⟩

/-- Witness city producing a fuzzy match for the query "alpha". -/
def cityWC : City :=
  ⟨5, "Betaville", "betaville", "Freedonia", "FD", none, none, 4, 40⟩

/-- A concrete 0..100 scorer for witnesses. -/
def scorerW : String → String → ℚ :=
  fun _ n => if n = "betaville" then 90 else 10

/-- A concrete three-city repository for witnesses. -/
def repoW : CityRepository :=
  loadCities .sqlite [cityW1, cityWB, cityWC]

/-- The candidate list the query "alpha" produces on `repoW`: Alpha
exact, Alphaville prefix, Betaville fuzzy with score 90. -/
def candsW : List Tagged :=
  [⟨cityW1, some .exact, none, none⟩,
   ⟨cityWB, some .pref, none, none⟩,
   ⟨cityWC, some .fuzzy, some 90, none⟩]

/-- Witness for C1: the concrete query "alpha" over `repoW` (one exact,
one prefix, one fuzzy candidate, all with zero bias) returns the
strip-and-truncate image of a tier-ordered ranked list. -/
theorem search_tier_ordering_witness :
    CityRepository.search havW scorerW [] repoW "alpha" 10 none none
        none none (some 70)
      = pyTake ((applyLocationPrioritization havW none none none
          candsW).map stripTags) 10 ∧
    (applyLocationPrioritization havW none none none candsW).Pairwise
      (fun a b => tierRank a ≤ tierRank b) :=
  search_tier_ordering havW scorerW [] repoW "alpha" 10 none none none
    none (some 70) candsW 0 rfl (by decide)
    (by
      intro a b
      unfold scorerW
      constructor <;> split <;> norm_num)
    (by decide)
    (by
      intro t ht
      simp [biasScore])

/-! ## Claim C3: radius results sorted ascending and within the radius -/

/-- Both branches of `_find_by_haversine` keep only candidates whose
distance is at most `radius_km` and sort ascending by distance. -/
theorem findByHaversine_sorted_within (hav : ℚ → ℚ → ℚ → ℚ → ℚ)
    (db : List City) (rtreeExists : Bool) (cosAbsLat lat lng radiusKm : ℚ) :
    (findByHaversine hav db rtreeExists cosAbsLat lat lng radiusKm).Pairwise
        (fun a b => a.distanceKm ≤ b.distanceKm) ∧
      ∀ x ∈ findByHaversine hav db rtreeExists cosAbsLat lat lng radiusKm,
        x.distanceKm ≤ radiusKm := by
  unfold findByHaversine
  split <;>
  · refine ⟨pairwise_insertionSort_key (fun g : GeoHit => g.distanceKm) _, ?_⟩
    intro x hx
    rw [mem_insertionSort_key, List.mem_filterMap] at hx
    obtain ⟨c, _, heq⟩ := hx
    dsimp only at heq
    split at heq
    · cases heq
      assumption
    · cases heq

/-- C3: for every valid input, the list returned by
`find_by_coordinates` is sorted ascending by the attached `distance_km`
and every returned city has `distance_km ≤ radius_km`.  The distance is
whatever `_haversine` computes (the source's float Haversine with Earth
radius 6371 km); the theorem holds for every distance oracle `hav`, in
particular for that one. -/
theorem findByCoordinates_sorted_within (hav : ℚ → ℚ → ℚ → ℚ → ℚ)
    (db : List City) (rtreeExists : Bool) (cosAbsLat lat lng radiusKm : ℚ)
    (l : List GeoHit)
    (h : findByCoordinates hav db rtreeExists cosAbsLat lat lng radiusKm
          = .ok l) :
    l.Pairwise (fun a b => a.distanceKm ≤ b.distanceKm) ∧
      ∀ x ∈ l, x.distanceKm ≤ radiusKm := by
  unfold findByCoordinates at h
  split at h
  · cases h
  split at h
  · cases h
  split at h
  · cases h
  cases h
  exact findByHaversine_sorted_within hav db rtreeExists cosAbsLat
    lat lng radiusKm

/-- Witness for C3: on a concrete three-city store the valid call
returns ⟨Beta, 3⟩ then ⟨Alpha, 5⟩ — sorted ascending, all within the
radius 10, Gamma (distance 50) excluded. -/
theorem findByCoordinates_sorted_within_witness :
    (findByCoordinates havW [cityW1, cityW2, cityW3] false 1 0 0 10
        = .ok [⟨cityW2, 3⟩, ⟨cityW1, 5⟩]) ∧
      (([⟨cityW2, 3⟩, ⟨cityW1, 5⟩] : List GeoHit).Pairwise
          (fun a b => a.distanceKm ≤ b.distanceKm) ∧
        ∀ x ∈ ([⟨cityW2, 3⟩, ⟨cityW1, 5⟩] : List GeoHit),
          x.distanceKm ≤ 10) :=
  ⟨by rfl,
   findByCoordinates_sorted_within havW [cityW1, cityW2, cityW3] false 1
     0 0 10 [⟨cityW2, 3⟩, ⟨cityW1, 5⟩] (by rfl)⟩

/-! ## Claim C4: coordinate validation happens before any lookup -/

/-- C4: `find_by_coordinates` validates `lat ∈ [−90, 90]`,
`lng ∈ [−180, 180]` and `radius_km > 0` before touching the store.  For
an out-of-range input the same `InvalidParameter` error is produced
whatever the store contents — no query is performed — and for an
in-range input the call succeeds with a list (never such an error).
The source raises `ValueError`, which the HTTP edge maps to the spec's
`InvalidParameter` (400) error kind. -/
theorem findByCoordinates_validation (hav : ℚ → ℚ → ℚ → ℚ → ℚ)
    (cosAbsLat lat lng radiusKm : ℚ) :
    (¬((-90 ≤ lat ∧ lat ≤ 90) ∧ (-180 ≤ lng ∧ lng ≤ 180) ∧ 0 < radiusKm) →
      ∃ msg, ∀ (db : List City) (rtreeExists : Bool),
        findByCoordinates hav db rtreeExists cosAbsLat lat lng radiusKm
          = .error (.invalidParameter msg)) ∧
    (((-90 ≤ lat ∧ lat ≤ 90) ∧ (-180 ≤ lng ∧ lng ≤ 180) ∧ 0 < radiusKm) →
      ∀ (db : List City) (rtreeExists : Bool),
        ∃ l, findByCoordinates hav db rtreeExists cosAbsLat lat lng radiusKm
          = .ok l) := by
  constructor
  · intro hbad
    unfold findByCoordinates
    by_cases hlat : -90 ≤ lat ∧ lat ≤ 90
    · by_cases hlng : -180 ≤ lng ∧ lng ≤ 180
      · have hrad : radiusKm ≤ 0 := by
          by_contra hr
          exact hbad ⟨hlat, hlng, lt_of_not_ge (fun hge => hr (by linarith))⟩
        exact ⟨"Radius must be positive", fun db rt => by
          rw [if_neg (by simpa using hlat), if_neg (by simpa using hlng),
            if_pos hrad]⟩
      · exact ⟨"Longitude must be between -180 and 180", fun db rt => by
          rw [if_neg (by simpa using hlat), if_pos hlng]⟩
    · exact ⟨"Latitude must be between -90 and 90", fun db rt => by
        rw [if_pos hlat]⟩
  · rintro ⟨hlat, hlng, hrad⟩ db rt
    refine ⟨findByHaversine hav db rt cosAbsLat lat lng radiusKm, ?_⟩
    unfold findByCoordinates
    rw [if_neg (by simpa using hlat), if_neg (by simpa using hlng),
      if_neg (by simpa using (not_le.mpr hrad))]

/-- Witness for C4: `find_by_coordinates(91, 0, 5)` fails with
`InvalidParameter` on every store (here the empty and a non-empty one),
and the in-range call `(0, 0, 10)` succeeds. -/
theorem findByCoordinates_validation_witness :
    (findByCoordinates havW [] false 1 91 0 5
        = .error (.invalidParameter "Latitude must be between -90 and 90")) ∧
    (findByCoordinates havW [cityW1] true 1 91 0 5
        = .error (.invalidParameter "Latitude must be between -90 and 90")) ∧
    (∃ l, findByCoordinates havW [cityW1] false 1 0 0 10 = .ok l) := by
  obtain ⟨msg, hmsg⟩ :=
    (findByCoordinates_validation havW 1 91 0 5).1 (by norm_num)
  have h1 := hmsg [] false
  have h2 := hmsg [cityW1] true
  have hm : msg = "Latitude must be between -90 and 90" := by
    have := h1
    unfold findByCoordinates at this
    rw [if_pos (by norm_num)] at this
    cases this
    rfl
  subst hm
  exact ⟨h1, h2,
    (findByCoordinates_validation havW 1 0 0 10).2 (by norm_num) [cityW1]
      false⟩

/-! ## CityDataImporter (`importer.py`)

The CSV import pipeline for the embedded backend:
`import_from_csv` → clear-if-nonempty → pandas `dropna` on the required
source columns → `_standardize_columns` → `_import_dataframe` (batches)
→ `_import_batch` → `_filter_valid_cities` → `_import_batch_sqlite`.

A parsed cell that is missing or the empty string is `none` (the source
reads with `keep_default_na=False, na_values=[""]`).  Column renaming
(`country_name → country`, `latitude → lat`, …) is reflected in the
field names.  The column-level checks (`required_columns`, the
`ascii_name` column absent from the canonical corpus) are fixed by the
model: the canonical columns are present, `ascii_name` is not. -/

/-- Python `str.upper()`. -/
def pyUpper (s : String) : String :=
  ⟨s.data.map Char.toUpper⟩

/-- Python `s[:n]` on strings. -/
def strTake (s : String) (n : Nat) : String :=
  ⟨s.data.take n⟩

/-- `str.encode('ascii', errors='ignore').decode('ascii')`: drop every
non-ASCII character. -/
def asciiEncode (s : String) : String :=
  ⟨s.data.filter (fun c => c.toNat < 128)⟩

/-- Python `x or y` on optional strings: the first truthy value. -/
def pyOrStr (a b : Option String) : Option String :=
  if pyTruthyStr a then a else b

/-- One source CSV row after parsing and column renaming. -/
structure RawRow where
  id : Int
  name : Option String
  stateId : Option Int
  stateCode : Option String
  state : Option String
  countryId : Option Int
  countryCode : Option String
  country : Option String
  lat : Option ℚ
  lng : Option ℚ
  wikiDataId : Option String
deriving Repr, DecidableEq

/-- A row after `_standardize_columns` (same fields plus `ascii_name`). -/
structure StdRow where
  id : Int
  name : Option String
  asciiName : Option String
  stateId : Option Int
  stateCode : Option String
  state : Option String
  countryId : Option Int
  countryCode : Option String
  country : Option String
  lat : Option ℚ
  lng : Option ℚ
  wikiDataId : Option String
deriving Repr, DecidableEq

/-- A persisted `city_data` row (the columns of the importer's INSERT;
`id` is kept as the association key of the table). -/
structure DbCityRow where
  name : String
  asciiName : String
  stateId : Option Int
  stateCode : Option String
  state : Option String
  countryId : Option Int
  countryCode : String
  country : Option String
  lat : ℚ
  lng : ℚ
  wikiDataId : Option String
deriving Repr, DecidableEq

/-- The persistent `city_data` table, keyed by the primary key `id`. -/
abbrev CityTable := List (Int × DbCityRow)

/-- `_standardize_columns` on one row: synthesise `ascii_name` from the
name, and fill a missing `country_code` from the first two characters
of the country name (uppercased), or the placeholder `XX`. -/
def standardizeRow (r : RawRow) : StdRow :=
  { id := r.id
    name := r.name
    asciiName := r.name.map asciiEncode
    stateId := r.stateId
    stateCode := r.stateCode
    state := r.state
    countryId := r.countryId
    countryCode :=
      match r.countryCode with
      | some cc => some cc
      | none =>
        some (match r.country with
          | some cn =>
            if 2 ≤ (pyStrip cn).length then pyUpper (strTake (pyStrip cn) 2)
            else "XX"
          | none => "XX")
    country := r.country
    lat := r.lat
    lng := r.lng
    wikiDataId := r.wikiDataId }

/-- `_standardize_columns` over the dataframe. -/
def standardizeColumns (rows : List RawRow) : List StdRow :=
  rows.map standardizeRow

/-- The `df.dropna(subset=['name', 'country_name', 'latitude',
'longitude'])` step of `import_from_csv`. -/
def dropnaRequired (rows : List RawRow) : List RawRow :=
  rows.filter (fun r =>
    r.name.isSome && r.country.isSome && r.lat.isSome && r.lng.isSome)

/-- `_filter_valid_cities`: keep rows with a truthy name and a truthy
country code. -/
def filterValidCities (batch : List StdRow) : List StdRow :=
  batch.filter (fun c => pyTruthyStr c.name && pyTruthyStr c.countryCode)

/-- The row tuple bound by the INSERT of `_import_batch_sqlite`:
`ascii_name or name`, `lat or 0.0`, `lng or 0.0`. -/
def mkDbRow (c : StdRow) : DbCityRow :=
  { name := c.name.getD ""
    asciiName := (pyOrStr c.asciiName c.name).getD ""
    stateId := c.stateId
    stateCode := c.stateCode
    state := c.state
    countryId := c.countryId
    countryCode := c.countryCode.getD ""
    country := c.country
    lat := c.lat.getD 0
    lng := c.lng.getD 0
    wikiDataId := c.wikiDataId }

/-- One INSERT: a duplicate primary key raises, is caught per-row and
the row is skipped; otherwise the row is appended. -/
def insertCity (t : CityTable) (c : StdRow) : CityTable :=
  if (dictGet t c.id).isSome then t else t ++ [(c.id, mkDbRow c)]

/-- `_import_batch`: filter the batch, then insert row by row
(`_import_batch_sqlite`). -/
def importBatch (t : CityTable) (batch : List StdRow) : CityTable :=
  (filterValidCities batch).foldl insertCity t

/-- The batch loop of `_import_dataframe`, structurally recursive on a
fuel bounded below by the record count (each positive-size batch step
strictly shrinks the list, so the fuel never runs out in
`importDataframe`). -/
def importLoop (b : Nat) (t : CityTable) (cities : List StdRow) :
    Nat → CityTable
  | 0 => t
  | fuel + 1 =>
    if cities = [] ∨ b = 0 then t
    else importLoop b (importBatch t (cities.take b)) (cities.drop b) fuel

/-- `_import_dataframe`: process the records in batches of `b`
(`range(0, len(cities), batch_size)`; the source raises for a zero step,
which the model leaves out of scope by returning the table unchanged). -/
def importDataframe (t : CityTable) (cities : List StdRow) (b : Nat) :
    CityTable :=
  importLoop b t cities cities.length

/-- `import_from_csv` (embedded backend): clear the table when it
already holds rows, drop source rows with missing required values,
standardise, and import in batches. -/
def importFromCsv (t : CityTable) (rows : List RawRow) (b : Nat) :
    CityTable :=
  importDataframe (if 0 < t.length then [] else t)
    (standardizeColumns (dropnaRequired rows)) b

/-- `GeoStore.row_count()` over the model table. -/
def rowCount (t : CityTable) : Nat :=
  t.length

/-! ## Claim C7: re-importing the same CSV leaves the row count fixed -/

/-- The import clears the table first, so its outcome does not depend
on the prior table contents. -/
theorem importFromCsv_const (t : CityTable) (rows : List RawRow)
    (b : Nat) :
    importFromCsv t rows b
      = importDataframe [] (standardizeColumns (dropnaRequired rows)) b := by
  unfold importFromCsv
  congr 1
  split
  · rfl
  · exact List.eq_nil_of_length_eq_zero (by omega)

/-- C7: importing the same CSV twice yields the same `row_count()` as
after the first import (the importer clears the table and replays the
same deterministic insert sequence). -/
theorem importFromCsv_idempotent (t : CityTable) (rows : List RawRow)
    (b : Nat) (hb : 0 < b) :
    rowCount (importFromCsv (importFromCsv t rows b) rows b)
      = rowCount (importFromCsv t rows b) := by
  rw [importFromCsv_const, importFromCsv_const]

/-- Concrete raw row for the import witnesses. -/
def rawRowW : RawRow :=
  ⟨21, some "Delta", none, none, none, none, some "FD", some "Freedonia",
    some 7, some 8, none⟩

/-- Witness for C7: one concrete import, re-imported, keeps row count 1. -/
theorem importFromCsv_idempotent_witness :
    0 < 1000 ∧
      rowCount (importFromCsv (importFromCsv [] [rawRowW] 1000)
          [rawRowW] 1000)
        = rowCount (importFromCsv [] [rawRowW] 1000) :=
  ⟨by decide, importFromCsv_idempotent [] [rawRowW] 1000 (by decide)⟩

/-! ## Claims C5 and C6: what the import pipeline rejects -/

/-- With a positive batch size the batch loop is the plain left fold of
the row inserts over the filtered records. -/
theorem importLoop_eq_foldl (b : Nat) (hb : 0 < b) :
    ∀ (fuel : Nat) (l : List StdRow), l.length ≤ fuel →
      ∀ (t : CityTable),
        importLoop b t l fuel = (filterValidCities l).foldl insertCity t := by
  intro fuel
  induction fuel with
  | zero =>
    intro l hl t
    have hnil : l = [] := List.eq_nil_of_length_eq_zero (by omega)
    subst hnil
    simp [importLoop, filterValidCities]
  | succ fuel ih =>
    intro l hl t
    rcases eq_or_ne l [] with rfl | hne
    · simp [importLoop, filterValidCities]
    · rw [importLoop, if_neg (by push_neg; exact ⟨hne, by omega⟩)]
      rw [ih (l.drop b) (by
        have hpos : 0 < l.length := List.length_pos.2 hne
        simp only [List.length_drop]
        omega)]
      unfold importBatch filterValidCities
      rw [← List.foldl_append, ← List.filter_append, List.take_append_drop]

/-- Every row of the table built by the insert fold comes from the
initial table or from one of the filtered records. -/
theorem mem_foldl_insertCity :
    ∀ (cs : List StdRow) (t : CityTable) (p : Int × DbCityRow),
      p ∈ cs.foldl insertCity t →
      p ∈ t ∨ ∃ c ∈ cs, p = (c.id, mkDbRow c) := by
  intro cs
  induction cs with
  | nil =>
    intro t p hp
    exact Or.inl (by simpa using hp)
  | cons c cs ih =>
    intro t p hp
    rw [List.foldl_cons] at hp
    rcases ih _ p hp with h1 | ⟨c2, hc2, rfl⟩
    · unfold insertCity at h1
      split at h1
      · exact Or.inl h1
      · rcases List.mem_append.1 h1 with h2 | h2
        · exact Or.inl h2
        · right
          exact ⟨c, List.mem_cons_self c cs, by simpa using h2⟩
    · exact Or.inr ⟨c2, List.mem_cons_of_mem c hc2, rfl⟩

/-- C6 (amended): the import pipeline rejects exactly the source rows
with a missing required value (name, country name, lat or lng, plus
the name/country-code validity filter); it performs no range check, so
the persisted `lat`/`lng` are carried over from the source row
unchanged — out-of-range coordinates included. -/
theorem import_rejects_missing_only (t : CityTable) (rows : List RawRow)
    (b : Nat) (hb : 0 < b) :
    ∀ p ∈ importFromCsv t rows b, ∃ raw ∈ rows,
      raw.name.isSome ∧ raw.country.isSome ∧
      raw.lat = some p.2.lat ∧ raw.lng = some p.2.lng := by
  intro p hp
  rw [importFromCsv_const] at hp
  unfold importDataframe at hp
  rw [importLoop_eq_foldl b hb _ _ (le_refl _)] at hp
  rcases mem_foldl_insertCity _ _ _ hp with h0 | ⟨c, hc, rfl⟩
  · simp at h0
  · have hc1 := (List.mem_filter.1 hc).1
    obtain ⟨raw, hraw, rfl⟩ := List.mem_map.1 hc1
    have hdropRaw := List.mem_filter.1 hraw
    have hcond := hdropRaw.2
    simp only [Bool.and_eq_true, Option.isSome_iff_exists] at hcond
    obtain ⟨⟨⟨⟨n, hn⟩, cn, hcn⟩, la, hla⟩, ln, hln⟩ := hcond
    refine ⟨raw, hdropRaw.1, by simp [hn], by simp [hcn], ?_, ?_⟩
    · simp [mkDbRow, standardizeRow, hla]
    · simp [mkDbRow, standardizeRow, hln]

/-- C6 (counterexample): a source row with `lat = 100` (outside
[−90, 90]) is *not* rejected at import — it is persisted with its
out-of-range latitude, so the store and everything loaded from it can
carry out-of-range coordinates. -/
theorem import_out_of_range_inserted :
    (dictGet (importFromCsv []
        [⟨11, some "Nowhere", none, none, none, none, some "XX",
          some "Xland", some 100, some 0, none⟩] 1000) 11).map
      (fun r => r.lat) = some 100 ∧ ¬((100 : ℚ) ≤ 90) := by
  constructor
  · decide
  · decide

/-- Witness for the amended C6: the persisted out-of-range row of the
counterexample indeed traces back to a source row with all required
fields present and the same coordinates. -/
theorem import_rejects_missing_only_witness :
    0 < 1000 ∧
      (⟨11, ⟨"Nowhere", "Nowhere", none, none, none, none, "XX",
          some "Xland", 100, 0, none⟩⟩ : Int × DbCityRow) ∈
        importFromCsv []
          [⟨11, some "Nowhere", none, none, none, none, some "XX",
            some "Xland", some 100, some 0, none⟩] 1000 ∧
      ∃ raw ∈ [(⟨11, some "Nowhere", none, none, none, none, some "XX",
            some "Xland", some 100, some 0, none⟩ : RawRow)],
        raw.name.isSome ∧ raw.country.isSome ∧
        raw.lat = some (100 : ℚ) ∧ raw.lng = some (0 : ℚ) :=
  ⟨by decide, by decide,
    import_rejects_missing_only []
      [⟨11, some "Nowhere", none, none, none, none, some "XX",
        some "Xland", some 100, some 0, none⟩] 1000 (by decide)
      ⟨11, ⟨"Nowhere", "Nowhere", none, none, none, none, "XX",
        some "Xland", 100, 0, none⟩⟩ (by decide)⟩

/-- C5: a source row whose `country_code` is missing is *not* rejected:
`_standardize_columns` synthesises a code from the first two letters of
the country name ("France" → "FR") and the row is inserted.  This
contradicts the spec (and the importer's own trailing proposed-fix
comment, which lists `country_code` as a required field to validate). -/
theorem import_synthesizes_country_code :
    rowCount (importFromCsv []
        [⟨7, some "Paris", none, none, none, none, none, some "France",
          some 48, some 2, none⟩] 1000) = 1 ∧
    (dictGet (importFromCsv []
        [⟨7, some "Paris", none, none, none, none, none, some "France",
          some 48, some 2, none⟩] 1000) 7).map
      (fun r => r.countryCode) = some "FR" := by
  constructor
  · decide
  · decide

/-! ## Shared dictionary lemmas -/

/-- Python `d[k] = f(d[k])` applied in place (also the effect of
mutating a value object reached through `d[k]`). -/
def dictUpdate [BEq κ] (d : List (κ × ν)) (k : κ) (f : ν → ν) :
    List (κ × ν) :=
  d.map (fun p => if p.1 == k then (p.1, f p.2) else p)

/-- Updating the entry at `k` is seen by the next lookup of `k`. -/
theorem dictGet_dictUpdate [BEq κ] (d : List (κ × ν)) (k : κ)
    (f : ν → ν) :
    dictGet (dictUpdate d k f) k = (dictGet d k).map f := by
  induction d with
  | nil => rfl
  | cons q d ih =>
    unfold dictUpdate dictGet at *
    rcases hq : (q.1 == k) with _ | _
    · simpa [List.find?, hq] using ih
    · simp [List.find?, hq]

/-- Appending a fresh key is seen by the next lookup of that key. -/
theorem dictGet_append_of_none [BEq κ] [LawfulBEq κ] (d : List (κ × ν))
    (k : κ) (v : ν) (h : dictGet d k = none) :
    dictGet (d ++ [(k, v)]) k = some v := by
  induction d with
  | nil => simp [dictGet, List.find?]
  | cons q d ih =>
    unfold dictGet at *
    rcases hq : (q.1 == k) with _ | _
    · simp only [List.cons_append, List.find?, hq]
      exact ih (by simpa [List.find?, hq] using h)
    · simp [List.find?, hq] at h

/-- Overwriting at `k` is seen by the next lookup of `k`. -/
theorem dictGet_dictSet [BEq κ] [LawfulBEq κ] (d : List (κ × ν)) (k : κ)
    (v : ν) :
    dictGet (dictSet d k v) k = some v := by
  unfold dictSet
  split
  case isFalse hs =>
    exact dictGet_append_of_none d k v
      (Option.not_isSome_iff_eq_none.1 hs)
  case isTrue hs =>
    induction d with
    | nil => simp [dictGet] at hs
    | cons q d ih =>
      rcases hq : (q.1 == k) with _ | _
      · have hs2 : (dictGet d k).isSome := by
          simpa [dictGet, List.find?, hq] using hs
        simpa [dictGet, List.find?, hq] using ih hs2
      · simp [dictGet, List.find?, hq]

/-! ## The search result cache (`@lru_cache` on `CityRepository.search`)

`functools.lru_cache` stores the returned list object itself; a cache
hit returns that same object, so a caller that mutates a returned list
writes through the alias into the cache entry.  The model makes the
aliasing explicit: `cachedSearch` returns the stored value, and
`mutateResult` is what a caller mutation of a returned result does to
the cache.  (Eviction at maxsize 5000 is not modelled; evicting an
entry of this pure function only forces an identical recomputation.) -/

/-- The canonical argument tuple keying the cache. -/
structure SearchArgs where
  query : String
  lim : Int
  country : Option String
  uLat : Option ℚ
  uLng : Option ℚ
  uCountry : Option String
  thr : Option ℚ
deriving Repr, DecidableEq

/-- The memo table of the `lru_cache` wrapper. -/
structure SearchCache where
  entries : List (SearchArgs × List Stripped)
deriving Repr, DecidableEq

/-- One call of the cached `search`: a hit returns the stored object;
a miss runs the body and stores the returned object. -/
def cachedSearch (hav : ℚ → ℚ → ℚ → ℚ → ℚ)
    (scorer : String → String → ℚ) (pg : List City)
    (repo : CityRepository) (a : SearchArgs) (cache : SearchCache) :
    List Stripped × SearchCache :=
  match dictGet cache.entries a with
  | some v => (v, cache)
  | none =>
    let r := CityRepository.search hav scorer pg repo a.query a.lim
      a.country a.uLat a.uLng a.uCountry a.thr
    (r, ⟨cache.entries ++ [(a, r)]⟩)

/-- A caller mutating the list returned for `a` mutates the cache entry
for `a` — they are the same object. -/
def mutateResult (a : SearchArgs) (f : List Stripped → List Stripped)
    (cache : SearchCache) : SearchCache :=
  ⟨dictUpdate cache.entries a f⟩

/-- C9 (amended): the cache is transparent only in the absence of
caller mutation: an immediately repeated `search(a)` returns a result
equal to the first call's (indeed the same object), but the entries are
aliases, not immutable snapshots — after a caller mutates the returned
result with `f`, the next `search(a)` returns the mutated object
`f r`. -/
theorem cachedSearch_repeat_and_alias (hav : ℚ → ℚ → ℚ → ℚ → ℚ)
    (scorer : String → String → ℚ) (pg : List City)
    (repo : CityRepository) (a : SearchArgs) (cache : SearchCache)
    (f : List Stripped → List Stripped) :
    (cachedSearch hav scorer pg repo a
        ((cachedSearch hav scorer pg repo a cache).2)).1
      = (cachedSearch hav scorer pg repo a cache).1 ∧
    (cachedSearch hav scorer pg repo a
        (mutateResult a f ((cachedSearch hav scorer pg repo a cache).2))).1
      = f ((cachedSearch hav scorer pg repo a cache).1) := by
  rcases h : dictGet cache.entries a with _ | v
  · have hsnd : (cachedSearch hav scorer pg repo a cache).2
        = ⟨cache.entries ++
            [(a, CityRepository.search hav scorer pg repo a.query a.lim
              a.country a.uLat a.uLng a.uCountry a.thr)]⟩ := by
      unfold cachedSearch
      rw [h]
    have hfst : (cachedSearch hav scorer pg repo a cache).1
        = CityRepository.search hav scorer pg repo a.query a.lim
            a.country a.uLat a.uLng a.uCountry a.thr := by
      unfold cachedSearch
      rw [h]
    have hget := dictGet_append_of_none cache.entries a
      (CityRepository.search hav scorer pg repo a.query a.lim a.country
        a.uLat a.uLng a.uCountry a.thr) h
    constructor
    · rw [hsnd, hfst]
      unfold cachedSearch
      simp only []
      rw [hget]
    · rw [hsnd, hfst]
      unfold mutateResult cachedSearch
      simp only []
      rw [dictGet_dictUpdate, hget]
      simp only [Option.map_some']
  · have hsnd : (cachedSearch hav scorer pg repo a cache).2 = cache := by
      unfold cachedSearch
      rw [h]
    have hfst : (cachedSearch hav scorer pg repo a cache).1 = v := by
      unfold cachedSearch
      rw [h]
    constructor
    · rw [hsnd, hfst]
    · rw [hsnd, hfst]
      unfold mutateResult cachedSearch
      simp only []
      rw [dictGet_dictUpdate, h]
      simp only [Option.map_some']

/-- The argument tuple of the cache counterexample. -/
def argsW : SearchArgs :=
  ⟨"alpha", 10, none, none, none, none, some 70⟩

/-- C9 (counterexample): on a one-city corpus, `search("alpha")`
returns `[Alpha]`; after the caller empties the returned list, the next
`search("alpha")` with the same arguments returns `[]` — mutating a
returned result changed what a later identical call returns. -/
theorem cachedSearch_mutation_counterexample :
    ((cachedSearch havW (fun _ _ => 10) [] (loadCities .sqlite [cityW1])
        argsW ⟨[]⟩).1 = [⟨cityW1, none⟩]) ∧
    ((cachedSearch havW (fun _ _ => 10) [] (loadCities .sqlite [cityW1])
        argsW (mutateResult argsW (fun _ => [])
          (cachedSearch havW (fun _ _ => 10) []
            (loadCities .sqlite [cityW1]) argsW ⟨[]⟩).2)).1 = []) ∧
    (([] : List Stripped) ≠ [⟨cityW1, none⟩]) := by
  exact ⟨by decide, by decide, by decide⟩

/-! ## Shared-memory coordination (`repositories.py`, module-level
reference counting and `BaseRepository.cleanup_shared_memory`)

A cross-process transition model.  The OS state is the set of existing
named regions; each process carries its own module-level
`_shm_reference_counts` dict and `_shared_memory_handles` registry (the
counts are process-local — each Python process has its own module
globals).  `attachFlag` is `_create_or_get_shared_flag` (attach or
create, increment, register); `cleanupStep` is one name's round inside
`cleanup_shared_memory`: close the handle, decrement the local count,
and unlink when `os.getpid() == os.getppid()` (the source's `is_parent`
test — a process's own pid never equals its parent's pid, so this is
never true in practice) or the decremented local count is ≤ 0. -/

/-- The local state of one process. -/
structure ProcState where
  refCounts : List (String × Int)
  handles : List String
deriving Repr, DecidableEq

/-- The cross-process world: existing named regions plus each process's
local state, keyed by pid. -/
structure ShmWorld where
  regions : List String
  procs : List (Nat × ProcState)
deriving Repr, DecidableEq

/-- The local state of process `pid` (fresh processes start empty). -/
def procOf (w : ShmWorld) (pid : Nat) : ProcState :=
  (dictGet w.procs pid).getD ⟨[], []⟩

/-- `_increment_shm_ref_count`. -/
def incrementRef (rc : List (String × Int)) (name : String) :
    List (String × Int) :=
  match dictGet rc name with
  | some _ => dictUpdate rc name (fun c => c + 1)
  | none => rc ++ [(name, 1)]

/-- `_decrement_shm_ref_count`: the updated dict and the returned
count (0 when the name was never counted). -/
def decrementRef (rc : List (String × Int)) (name : String) :
    List (String × Int) × Int :=
  match dictGet rc name with
  | some c => (dictUpdate rc name (fun x => x - 1), c - 1)
  | none => (rc, 0)

/-- The per-process reference count of a name. -/
def countOf (w : ShmWorld) (pid : Nat) (name : String) : Int :=
  (dictGet (procOf w pid).refCounts name).getD 0

/-- `_create_or_get_shared_flag` run by process `pid`: attach to the
region (creating it when missing), increment the process-local count,
register the handle. -/
def attachFlag (w : ShmWorld) (pid : Nat) (name : String) : ShmWorld :=
  let p := procOf w pid
  let p2 : ProcState :=
    ⟨incrementRef p.refCounts name,
     if name ∈ p.handles then p.handles else p.handles ++ [name]⟩
  ⟨if name ∈ w.regions then w.regions else w.regions ++ [name],
   dictSet w.procs pid p2⟩

/-- The six region names processed by `cleanup_shared_memory`. -/
def shmNames : List String :=
  ["geodash_city_repo_init", "geodash_geo_repo_init",
   "geodash_region_repo_init", "geodash_city_repo_data",
   "geodash_geo_repo_data", "geodash_region_repo_data"]

/-- One name's round of `cleanup_shared_memory` in process `pid`:
close the handle, decrement the local count, unlink the region iff
`pid == ppid` (the source's `is_parent`) or the decremented local count
is ≤ 0. -/
def cleanupStep (pid ppid : Nat) (w : ShmWorld) (name : String) :
    ShmWorld :=
  let p := procOf w pid
  let dec := decrementRef p.refCounts name
  let p2 : ProcState := ⟨dec.1, p.handles.filter (fun n => !(n == name))⟩
  let w2 : ShmWorld := ⟨w.regions, dictSet w.procs pid p2⟩
  if pid = ppid ∨ dec.2 ≤ 0 then
    ⟨w2.regions.filter (fun n => !(n == name)), w2.procs⟩
  else
    w2

/-- `BaseRepository.cleanup_shared_memory` run by process `pid` whose
parent is `ppid`. -/
def cleanupShared (w : ShmWorld) (pid ppid : Nat) : ShmWorld :=
  shmNames.foldl (cleanupStep pid ppid) w

/-- C10 (amended): the reference count is per-process — each attach
increments and each cleanup decrements the calling process's own count
for the name — and a cleanup unlinks the region exactly when the
process's pid equals its parent's pid or its own decremented count
reaches zero or less; nothing ties the unlink to other processes'
attachments. -/
theorem shm_refcount_per_process :
    (∀ (w : ShmWorld) (pid : Nat) (name : String),
      countOf (attachFlag w pid name) pid name
        = countOf w pid name + 1) ∧
    (∀ (w : ShmWorld) (pid ppid : Nat) (name : String),
      name ∈ (cleanupStep pid ppid w name).regions ↔
        (name ∈ w.regions ∧
          ¬(pid = ppid ∨ (decrementRef (procOf w pid).refCounts name).2
            ≤ 0))) := by
  constructor
  · intro w pid name
    unfold countOf
    have hp : procOf (attachFlag w pid name) pid
        = ⟨incrementRef (procOf w pid).refCounts name,
           if name ∈ (procOf w pid).handles then (procOf w pid).handles
           else (procOf w pid).handles ++ [name]⟩ := by
      unfold attachFlag procOf
      rw [dictGet_dictSet]
      rfl
    rw [hp]
    simp only []
    unfold incrementRef
    rcases h : dictGet (procOf w pid).refCounts name with _ | c
    · simp only []
      rw [dictGet_append_of_none _ _ _ h]
      simp
    · simp only []
      rw [dictGet_dictUpdate, h]
      simp
  · intro w pid ppid name
    unfold cleanupStep
    simp only []
    split
    · simp only [List.mem_filter, beq_self_eq_true, Bool.not_true,
        Bool.false_eq_true, and_false, false_iff, not_and, not_not]
      intro _
      tauto
    · simp only []
      constructor
      · intro hmem
        exact ⟨hmem, by assumption⟩
      · intro hmem
        exact hmem.1

/-- C10 (counterexample): two worker processes (pids 101 and 102) both
attach to the city flag region; worker 101 exits and runs the cleanup
(its pid 101 differs from its parent pid 1, and its own count drops to
0), which unlinks the region while worker 102 still holds it — its
handle is registered and its local reference count is still 1. -/
theorem shm_unlink_while_held_counterexample :
    ("geodash_city_repo_init" ∉
        (cleanupShared
          (attachFlag (attachFlag ⟨[], []⟩ 101 "geodash_city_repo_init")
            102 "geodash_city_repo_init") 101 1).regions) ∧
    ("geodash_city_repo_init" ∈
        (procOf (cleanupShared
          (attachFlag (attachFlag ⟨[], []⟩ 101 "geodash_city_repo_init")
            102 "geodash_city_repo_init") 101 1) 102).handles) ∧
    (countOf (cleanupShared
          (attachFlag (attachFlag ⟨[], []⟩ 101 "geodash_city_repo_init")
            102 "geodash_city_repo_init") 101 1) 102
        "geodash_city_repo_init" = 1) := by
  exact ⟨by decide, by decide, by decide⟩

end GeoDash
